import Mathlib

/-!
Shallow embedding of `src/api/submit.js` (a Vercel serverless function that
accepts a plugin submission and persists it to a GitHub repository through
three Contents-API calls), together with proofs of the specification claims.

Modelling conventions:
* JavaScript runtime values occurring in the request body are modelled by
  `Submit.JSVal` (numbers restricted to integers; functions/objects other
  than arrays do not occur in a JSON request body).
* The network and the process environment are modelled as an oracle
  (`Submit.Env`) fixing the statuses returned by each upstream call and the
  parsed content of the fetched index file; the handler's outbound calls are
  recorded in an effect trace.
* `Buffer.from(s).toString('base64')` is modelled as UTF-8 encoding followed
  by base64; `JSON.stringify(x, null, 2)` and `JSON.parse` are modelled by
  the executable `stringifyAt`/`parseVal` below (JSON numbers restricted to
  integers, which covers every number the handler itself produces).
-/

namespace Submit

/-- JSON document values (numbers restricted to integers). -/
inductive Json where
  | null : Json
  | bool (b : Bool) : Json
  | num (n : Int) : Json
  | str (s : String) : Json
  | arr (xs : List Json) : Json
  | obj (kvs : List (String × Json)) : Json

/-- The opening-brace character, written via its code point. -/
def lbrace : Char := Char.ofNat 123

/-- The closing-brace character, written via its code point. -/
def rbrace : Char := Char.ofNat 125

/-- Decimal digit character for a value `< 10`. -/
def decDigit (n : Nat) : Char := Char.ofNat (48 + n)

/-- Decimal digit characters of a natural number, most significant first. -/
def natChars (n : Nat) : List Char :=
  if h : n < 10 then [decDigit n]
  else natChars (n / 10) ++ [decDigit (n % 10)]
  decreasing_by exact Nat.div_lt_self (by omega) (by omega)

/-- Decimal rendering of an integer (as `String(number)` renders a JS integer). -/
def intChars (n : Int) : List Char :=
  if n < 0 then '-' :: natChars n.natAbs else natChars n.toNat

/-- Decimal string of a natural number (used for template-literal coercion). -/
def natStr (n : Nat) : String := String.mk (natChars n)

/-- Lower-case hexadecimal digit for a value `< 16`. -/
def hexDigit (n : Nat) : Char :=
  if n < 10 then Char.ofNat (48 + n) else Char.ofNat (97 + (n - 10))

/-- JSON string escaping of one character, as `JSON.stringify` performs it:
short escapes for quote, backslash and the common control characters, a
`\u00xx` escape for the remaining control characters, and every other
character emitted literally. -/
def escChar (c : Char) : List Char :=
  if c = '"' then ['\\', '"']
  else if c = '\\' then ['\\', '\\']
  else if c = '\n' then ['\\', 'n']
  else if c = '\r' then ['\\', 'r']
  else if c = '\t' then ['\\', 't']
  else if c = Char.ofNat 8 then ['\\', 'b']
  else if c = Char.ofNat 12 then ['\\', 'f']
  else if c.toNat < 32 then ['\\', 'u', '0', '0', hexDigit (c.toNat / 16), hexDigit (c.toNat % 16)]
  else [c]

/-- JSON string escaping of a character sequence. -/
def escString : List Char → List Char
  | [] => []
  | c :: cs => escChar c ++ escString cs

/-- Indentation used by `JSON.stringify(x, null, 2)` at nesting depth `d`. -/
def indentChars (d : Nat) : List Char := List.replicate (2 * d) ' '

mutual

/-- Rendering of `JSON.stringify(x, null, 2)` at nesting depth `d`. -/
def stringifyAt : Nat → Json → List Char
  | _, .null => ['n', 'u', 'l', 'l']
  | _, .bool true => ['t', 'r', 'u', 'e']
  | _, .bool false => ['f', 'a', 'l', 's', 'e']
  | _, .num n => intChars n
  | _, .str s => '"' :: (escString s.data ++ ['"'])
  | _, .arr [] => ['[', ']']
  | d, .arr (x :: xs) =>
      '[' :: '\n' :: (stringifyItems (d + 1) x xs ++ '\n' :: (indentChars d ++ [']']))
  | _, .obj [] => [lbrace, rbrace]
  | d, .obj ((k, v) :: kvs) =>
      lbrace :: '\n' :: (stringifyFields (d + 1) k v kvs ++ '\n' :: (indentChars d ++ [rbrace]))
  termination_by d j => sizeOf j

/-- Comma-and-newline separated, indented array items. -/
def stringifyItems (d : Nat) (x : Json) : List Json → List Char
  | [] => indentChars d ++ stringifyAt d x
  | y :: ys => indentChars d ++ (stringifyAt d x ++ ',' :: '\n' :: stringifyItems d y ys)
  termination_by ys => sizeOf x + sizeOf ys

/-- Comma-and-newline separated, indented object members. -/
def stringifyFields (d : Nat) (k : String) (v : Json) : List (String × Json) → List Char
  | [] => indentChars d ++ ('"' :: (escString k.data ++ '"' :: ':' :: ' ' :: stringifyAt d v))
  | (k2, v2) :: rest =>
      indentChars d ++ ('"' :: (escString k.data ++ '"' :: ':' :: ' ' :: stringifyAt d v))
        ++ ',' :: '\n' :: stringifyFields d k2 v2 rest
  termination_by kvs => sizeOf v + sizeOf kvs

end

/-- Top-level `JSON.stringify(x, null, 2)`. -/
def stringifyTop (j : Json) : String := String.mk (stringifyAt 0 j)

/-- What follows one rendered array item: either the closing context `t`,
or the separator and the remaining items. -/
def itemsSep (d : Nat) (xs : List Json) (t : List Char) : List Char :=
  match xs with
  | [] => t
  | y :: ys => ',' :: '\n' :: (stringifyItems d y ys ++ t)

/-- What follows one rendered object member: either the closing context
`t`, or the separator and the remaining members. -/
def fieldsSep (d : Nat) (kvs : List (String × Json)) (t : List Char) : List Char :=
  match kvs with
  | [] => t
  | (k2, v2) :: rest => ',' :: '\n' :: (stringifyFields d k2 v2 rest ++ t)

/-- JSON whitespace (space, newline, tab, carriage return). -/
def isWsChar (c : Char) : Bool :=
  c.toNat = 32 || c.toNat = 10 || c.toNat = 9 || c.toNat = 13

/-- Drop leading JSON whitespace. -/
def skipWs : List Char → List Char
  | [] => []
  | c :: cs => if isWsChar c then skipWs cs else c :: cs

/-- Decimal digit test. -/
def isDigChar (c : Char) : Bool := 48 ≤ c.toNat && c.toNat ≤ 57

/-- Whether a character sequence begins with a decimal digit. -/
def digitStart : List Char → Bool
  | c :: _ => isDigChar c
  | [] => false

/-- Value of a hexadecimal digit (either case), if the character is one. -/
def hexVal? (c : Char) : Option Nat :=
  if '0' ≤ c ∧ c ≤ '9' then some (c.toNat - 48)
  else if 'a' ≤ c ∧ c ≤ 'f' then some (c.toNat - 97 + 10)
  else if 'A' ≤ c ∧ c ≤ 'F' then some (c.toNat - 65 + 10)
  else none

/-- Consume a run of decimal digits, extending the accumulator `acc`. -/
def parseDigits (acc : Nat) : List Char → Nat × List Char
  | [] => (acc, [])
  | c :: cs =>
      if isDigChar c then parseDigits (acc * 10 + (c.toNat - 48)) cs else (acc, c :: cs)

/-- Parse a JSON integer (an optional minus sign and at least one digit).
Fractional and exponent forms are not modelled; the handler only ever
serializes integers. -/
def parseIntTok : List Char → Option (Int × List Char)
  | [] => none
  | c :: cs =>
    if c = '-' then
      match cs with
      | [] => none
      | c2 :: cs2 =>
          if isDigChar c2 then
            let p := parseDigits (c2.toNat - 48) cs2
            some (-(p.1 : Int), p.2)
          else none
    else if isDigChar c then
      let p := parseDigits (c.toNat - 48) cs
      some ((p.1 : Int), p.2)
    else none

/-- Match an expected literal character sequence, returning the remainder. -/
def expectChars : List Char → List Char → Option (List Char)
  | [], r => some r
  | e :: es, c :: r => if c = e then expectChars es r else none
  | _ :: _, [] => none

/-- Parse the body of a JSON string after the opening quote, returning the
unescaped characters and the remainder after the closing quote. -/
def parseStrBody : List Char → Option (List Char × List Char)
  | [] => none
  | c :: cs =>
    if c = '"' then some ([], cs)
    else if c = '\\' then
      match cs with
      | [] => none
      | e :: cs2 =>
        if e = '"' then (parseStrBody cs2).map (fun p => ('"' :: p.1, p.2))
        else if e = '\\' then (parseStrBody cs2).map (fun p => ('\\' :: p.1, p.2))
        else if e = '/' then (parseStrBody cs2).map (fun p => ('/' :: p.1, p.2))
        else if e = 'n' then (parseStrBody cs2).map (fun p => ('\n' :: p.1, p.2))
        else if e = 'r' then (parseStrBody cs2).map (fun p => ('\r' :: p.1, p.2))
        else if e = 't' then (parseStrBody cs2).map (fun p => ('\t' :: p.1, p.2))
        else if e = 'b' then (parseStrBody cs2).map (fun p => (Char.ofNat 8 :: p.1, p.2))
        else if e = 'f' then (parseStrBody cs2).map (fun p => (Char.ofNat 12 :: p.1, p.2))
        else if e = 'u' then
          match cs2 with
          | h1 :: h2 :: h3 :: h4 :: cs3 =>
            match hexVal? h1, hexVal? h2, hexVal? h3, hexVal? h4 with
            | some a, some b, some c3, some d =>
                let n := ((a * 16 + b) * 16 + c3) * 16 + d
                if n.isValidChar then (parseStrBody cs3).map (fun p => (Char.ofNat n :: p.1, p.2))
                else none
            | _, _, _, _ => none
          | _ => none
        else none
    else if c.toNat < 32 then none
    else (parseStrBody cs).map (fun p => (c :: p.1, p.2))

mutual

/-- Recursive-descent JSON value parser (fueled); models `JSON.parse`
restricted to the document grammar the handler produces. -/
def parseVal : Nat → List Char → Option (Json × List Char)
  | 0, _ => none
  | fuel + 1, s =>
    match skipWs s with
    | [] => none
    | c :: r =>
      if c = 'n' then (expectChars ['u', 'l', 'l'] r).map (fun r2 => (Json.null, r2))
      else if c = 't' then (expectChars ['r', 'u', 'e'] r).map (fun r2 => (Json.bool true, r2))
      else if c = 'f' then (expectChars ['a', 'l', 's', 'e'] r).map (fun r2 => (Json.bool false, r2))
      else if c = '"' then (parseStrBody r).map (fun p => (Json.str (String.mk p.1), p.2))
      else if c = '[' then
        match skipWs r with
        | [] => none
        | c2 :: r2 =>
            if c2 = ']' then some (.arr [], r2)
            else (parseItems fuel (c2 :: r2)).map (fun p => (Json.arr p.1, p.2))
      else if c = lbrace then
        match skipWs r with
        | [] => none
        | c2 :: r2 =>
            if c2 = rbrace then some (.obj [], r2)
            else (parseFields fuel (c2 :: r2)).map (fun p => (Json.obj p.1, p.2))
      else if c = '-' || isDigChar c then
        (parseIntTok (c :: r)).map (fun p => (Json.num p.1, p.2))
      else none

/-- Parse the items of a non-empty JSON array, up to and including `]`. -/
def parseItems : Nat → List Char → Option (List Json × List Char)
  | 0, _ => none
  | fuel + 1, s =>
    match parseVal fuel s with
    | some (x, r) =>
        (match skipWs r with
         | [] => none
         | c :: r2 =>
            if c = ',' then (parseItems fuel r2).map (fun p => (x :: p.1, p.2))
            else if c = ']' then some ([x], r2)
            else none)
    | none => none

/-- Parse the members of a non-empty JSON object, up to and including the
closing brace. -/
def parseFields : Nat → List Char → Option (List (String × Json) × List Char)
  | 0, _ => none
  | fuel + 1, s =>
    match skipWs s with
    | [] => none
    | c :: r =>
      if c = '"' then
        match parseStrBody r with
        | some (k, r1) =>
            (match skipWs r1 with
             | [] => none
             | c2 :: r2 =>
                if c2 = ':' then
                  match parseVal fuel r2 with
                  | some (v, r3) =>
                      (match skipWs r3 with
                       | [] => none
                       | c3 :: r4 =>
                          if c3 = ',' then
                            (parseFields fuel r4).map (fun p => ((String.mk k, v) :: p.1, p.2))
                          else if c3 = rbrace then some ([(String.mk k, v)], r4)
                          else none)
                  | none => none
                else none)
        | none => none
      else none

end

/-- Model of `JSON.parse`: parse a complete document, rejecting trailing garbage. -/
def parseJson (s : String) : Option Json :=
  match parseVal (s.data.length + 1) s.data with
  | some (j, r) => if skipWs r = [] then some j else none
  | none => none

mutual

/-- Fuel needed by `parseVal` to parse a serialized document. -/
def Json.weight : Json → Nat
  | .arr xs => 1 + weightItems xs
  | .obj kvs => 1 + weightFields kvs
  | _ => 1
  termination_by j => sizeOf j

/-- Fuel needed by `parseItems` for a list of array items. -/
def weightItems : List Json → Nat
  | [] => 0
  | x :: xs => 1 + x.weight + weightItems xs
  termination_by l => sizeOf l

/-- Fuel needed by `parseFields` for a list of object members. -/
def weightFields : List (String × Json) → Nat
  | [] => 0
  | (_, v) :: kvs => 1 + v.weight + weightFields kvs
  termination_by l => sizeOf l

end

/-- UTF-8 encoding of one code point (as a list of byte values). -/
def utf8Bytes (n : Nat) : List Nat :=
  if n < 0x80 then [n]
  else if n < 0x800 then [0xc0 + n / 64, 0x80 + n % 64]
  else if n < 0x10000 then [0xe0 + n / 4096, 0x80 + n / 64 % 64, 0x80 + n % 64]
  else [0xf0 + n / 262144, 0x80 + n / 4096 % 64, 0x80 + n / 64 % 64, 0x80 + n % 64]

/-- UTF-8 encoding of a character sequence (what `Buffer.from(string)` holds). -/
def utf8Encode : List Char → List Nat
  | [] => []
  | c :: cs => utf8Bytes c.toNat ++ utf8Encode cs

/-- UTF-8 continuation-byte test. -/
def isCont (b : Nat) : Bool := 0x80 ≤ b && b < 0xc0

mutual

/-- UTF-8 decoding of a byte sequence, rejecting malformed input
(bad leading or continuation bytes, overlong forms, surrogates,
out-of-range code points). -/
def utf8Decode : List Nat → Option (List Char)
  | [] => some []
  | b :: bs =>
    if b < 0x80 then (utf8Decode bs).map (fun cs => Char.ofNat b :: cs)
    else if 0xc0 ≤ b ∧ b < 0xe0 then utf8Cont1 (b - 0xc0) bs
    else if 0xe0 ≤ b ∧ b < 0xf0 then utf8Cont2 (b - 0xe0) bs
    else if 0xf0 ≤ b ∧ b < 0xf8 then utf8Cont3 (b - 0xf0) bs
    else none
  termination_by l => l.length

/-- One continuation byte of a two-byte form, then the rest. -/
def utf8Cont1 (acc : Nat) : List Nat → Option (List Char)
  | b2 :: bs =>
      let v := acc * 64 + (b2 - 0x80)
      if isCont b2 ∧ 0x80 ≤ v then (utf8Decode bs).map (fun cs => Char.ofNat v :: cs)
      else none
  | [] => none
  termination_by l => l.length

/-- Two continuation bytes of a three-byte form, then the rest. -/
def utf8Cont2 (acc : Nat) : List Nat → Option (List Char)
  | b2 :: b3 :: bs =>
      let v := acc * 4096 + (b2 - 0x80) * 64 + (b3 - 0x80)
      if isCont b2 ∧ isCont b3 ∧ 0x800 ≤ v ∧ v.isValidChar then
        (utf8Decode bs).map (fun cs => Char.ofNat v :: cs)
      else none
  | _ => none
  termination_by l => l.length

/-- Three continuation bytes of a four-byte form, then the rest. -/
def utf8Cont3 (acc : Nat) : List Nat → Option (List Char)
  | b2 :: b3 :: b4 :: bs =>
      let v := acc * 262144 + (b2 - 0x80) * 4096 + (b3 - 0x80) * 64 + (b4 - 0x80)
      if isCont b2 ∧ isCont b3 ∧ isCont b4 ∧ 0x10000 ≤ v ∧ v < 0x110000 then
        (utf8Decode bs).map (fun cs => Char.ofNat v :: cs)
      else none
  | _ => none
  termination_by l => l.length

end

/-- Character of the standard base64 alphabet at index `i < 64`. -/
def b64Char (i : Nat) : Char :=
  if i < 26 then Char.ofNat (65 + i)
  else if i < 52 then Char.ofNat (97 + (i - 26))
  else if i < 62 then Char.ofNat (48 + (i - 52))
  else if i = 62 then '+'
  else '/'

/-- Index of a character in the base64 alphabet, if it belongs to it. -/
def b64Val? (c : Char) : Option Nat :=
  if 'A' ≤ c ∧ c ≤ 'Z' then some (c.toNat - 65)
  else if 'a' ≤ c ∧ c ≤ 'z' then some (c.toNat - 97 + 26)
  else if '0' ≤ c ∧ c ≤ '9' then some (c.toNat - 48 + 52)
  else if c = '+' then some 62
  else if c = '/' then some 63
  else none

/-- Standard (padded) base64 rendering of a byte sequence, as
`Buffer.prototype.toString('base64')` produces it. -/
def base64Chunks : List Nat → List Char
  | b1 :: b2 :: b3 :: bs =>
      b64Char (b1 / 4) :: b64Char (b1 % 4 * 16 + b2 / 16) ::
        b64Char (b2 % 16 * 4 + b3 / 64) :: b64Char (b3 % 64) :: base64Chunks bs
  | [b1, b2] => [b64Char (b1 / 4), b64Char (b1 % 4 * 16 + b2 / 16), b64Char (b2 % 16 * 4), '=']
  | [b1] => [b64Char (b1 / 4), b64Char (b1 % 4 * 16), '=', '=']
  | [] => []

/-- Base64 decoding of a padded base64 character sequence (padding is only
accepted at the very end of the input). -/
def base64DecodeChunks : List Char → Option (List Nat)
  | [] => some []
  | c1 :: c2 :: c3 :: c4 :: rest =>
      if c3 = '=' then
        if c4 = '=' ∧ rest = [] then
          match b64Val? c1, b64Val? c2 with
          | some a, some b => if b % 16 = 0 then some [a * 4 + b / 16] else none
          | _, _ => none
        else none
      else if c4 = '=' then
        if rest = [] then
          match b64Val? c1, b64Val? c2, b64Val? c3 with
          | some a, some b, some c =>
              if c % 4 = 0 then some [a * 4 + b / 16, b % 16 * 16 + c / 4] else none
          | _, _, _ => none
        else none
      else
        match b64Val? c1, b64Val? c2, b64Val? c3, b64Val? c4 with
        | some a, some b, some c, some d =>
            (base64DecodeChunks rest).map
              (fun bs => (a * 4 + b / 16) :: (b % 16 * 16 + c / 4) :: (c % 4 * 64 + d) :: bs)
        | _, _, _, _ => none
  | _ => none

/-- Model of `Buffer.from(s).toString('base64')`: UTF-8 encode then base64. -/
def toBase64 (s : String) : String := String.mk (base64Chunks (utf8Encode s.data))

/-- Undo `toBase64`: base64-decode, then UTF-8-decode. -/
def fromBase64 (s : String) : Option String :=
  match base64DecodeChunks s.data with
  | some bytes =>
      match utf8Decode bytes with
      | some cs => some (String.mk cs)
      | none => none
  | none => none

/-- JavaScript runtime values that can occur in the parsed request body
(numbers restricted to integers; plain objects and functions do not occur
in the fields this handler reads). -/
inductive JSVal where
  | undefined : JSVal
  | null : JSVal
  | str (s : String) : JSVal
  | num (n : Int) : JSVal
  | bool (b : Bool) : JSVal
  | arr (l : List JSVal) : JSVal

/-- JavaScript truthiness: `undefined`, `null`, `""`, `0` and `false` are
falsy; every array (even empty) is truthy. -/
def JSVal.truthy : JSVal → Bool
  | .undefined => false
  | .null => false
  | .str s => s ≠ ""
  | .num n => n ≠ 0
  | .bool b => b
  | .arr _ => true

/-- JavaScript `v || d`. -/
def jsOr (v d : JSVal) : JSVal := if v.truthy then v else d

mutual

/-- JavaScript `String(v)` coercion (template literals, `RegExp.test`). -/
def jsToString : JSVal → String
  | .undefined => "undefined"
  | .null => "null"
  | .str s => s
  | .num n => String.mk (intChars n)
  | .bool true => "true"
  | .bool false => "false"
  | .arr l => joinElems l

/-- Model of `Array.prototype.toString`: elements joined with commas, where `null`
and `undefined` elements render as the empty string. -/
def joinElems : List JSVal → String
  | [] => ""
  | [.undefined] => ""
  | [.null] => ""
  | [v] => jsToString v
  | .undefined :: vs => "," ++ joinElems vs
  | .null :: vs => "," ++ joinElems vs
  | v :: vs => jsToString v ++ "," ++ joinElems vs

end

mutual

/-- The JSON document `JSON.stringify` derives from a JavaScript value.
`undefined` is rendered as `null` (its treatment inside arrays; the object
fields this handler serializes are never `undefined`). -/
def JSVal.toJson : JSVal → Json
  | .undefined => .null
  | .null => .null
  | .str s => .str s
  | .num n => .num n
  | .bool b => .bool b
  | .arr l => .arr (toJsonList l)

/-- The map of `JSVal.toJson` over a list of array elements. -/
def toJsonList : List JSVal → List Json
  | [] => []
  | v :: vs => v.toJson :: toJsonList vs

end

/-- Member lookup in a JSON object's field list. -/
def lookupField : List (String × Json) → String → Option Json
  | [], _ => none
  | (k2, v) :: rest, k => if k = k2 then some v else lookupField rest k

/-- JavaScript member access `p.k` on a parsed JSON value: `none` models
`undefined` (also the result on non-objects). -/
def Json.getField? : Json → String → Option Json
  | .obj kvs, k => lookupField kvs k
  | _, _ => none

/-- The `Array.prototype.includes`-style SameValueZero comparison between a
request-body value and a member of a parsed JSON document.  Arrays compare
by reference; a request-body array and a freshly parsed one are necessarily
distinct objects, hence unequal. -/
def jsSameValue (v : JSVal) (j : Option Json) : Bool :=
  match v, j with
  | .str s, some (.str t) => s = t
  | .num n, some (.num m) => n = m
  | .bool a, some (.bool b) => a = b
  | .null, some .null => true
  | .undefined, none => true
  | _, _ => false

/-- The parsed request body (`req.body`); absent fields are `undefined`. -/
structure Body where
  id : JSVal := .undefined
  cn_name : JSVal := .undefined
  author : JSVal := .undefined
  description : JSVal := .undefined
  code : JSVal := .undefined
  version : JSVal := .undefined
  full_description : JSVal := .undefined
  category : JSVal := .undefined
  commands : JSVal := .undefined
  features : JSVal := .undefined
  usage : JSVal := .undefined
  changelog : JSVal := .undefined
  notes : JSVal := .undefined

/-- Dynamic field access `data[field]` for the validation loop. -/
def Body.get (data : Body) : String → JSVal
  | "id" => data.id
  | "cn_name" => data.cn_name
  | "author" => data.author
  | "description" => data.description
  | "code" => data.code
  | "version" => data.version
  | "full_description" => data.full_description
  | "category" => data.category
  | "commands" => data.commands
  | "features" => data.features
  | "usage" => data.usage
  | "changelog" => data.changelog
  | "notes" => data.notes
  | _ => .undefined

/-- The HTTP response: status code and JSON body
`{success, error?, message?}`. -/
structure Response where
  status : Nat
  success : Bool
  error : Option String := none
  message : Option String := none
deriving DecidableEq

/-- Body of a Contents-API `PUT` request: `{message, content, branch, sha?}`. -/
structure PutData where
  message : String
  content : String
  branch : String
  sha : Option String := none
deriving DecidableEq

/-- Observable actions of the handler, in program order. -/
inductive Effect where
  | setHeader (name value : String) : Effect
  | putPluginFile (url : String) (body : PutData) : Effect
  | putConfigFile (url : String) (body : PutData) : Effect
  | getIndex (url : String) : Effect
  | putIndex (url : String) (body : PutData) : Effect
deriving DecidableEq

/-- The fetched shared index (`plugins.json`), already base64-decoded and
JSON-parsed, together with its concurrency token `sha`. -/
structure IndexFile where
  version : String
  last_updated : String
  plugins : List Json
  sha : String

/-- Oracle for the process environment and the three upstream calls: the
credential and repository variables, the status codes the two file `PUT`s
return, the index fetch result (`none` models a non-`ok` response), the
status of the final index `PUT`, and today's date string. -/
structure Env where
  githubToken : Option String
  githubRepo : Option String
  pluginPutStatus : Nat
  configPutStatus : Nat
  indexFetch : Option IndexFile
  indexPutStatus : Nat
  today : String

/-- Predicate `Response.ok` of the Fetch API. -/
def fetchOk (status : Nat) : Bool := 200 ≤ status && status < 300

/-- The three CORS headers the handler sets for POST requests. -/
def corsEffects : List Effect :=
  [.setHeader "Access-Control-Allow-Origin" "*",
   .setHeader "Access-Control-Allow-Methods" "POST",
   .setHeader "Access-Control-Allow-Headers" "Content-Type"]

/-- The required fields, in the order the validation loop checks them. -/
def requiredFields : List String := ["id", "cn_name", "author", "description", "code"]

/-- First required field whose value is falsy, in declaration order. -/
def firstMissing (data : Body) : Option String :=
  requiredFields.find? (fun f => !(data.get f).truthy)

/-- Full match against `/^[a-z][a-z0-9_]*$/`: one lowercase letter, then
lowercase letters, digits or underscores. -/
def idOk (s : String) : Bool :=
  match s.data with
  | [] => false
  | c :: cs =>
      ('a' ≤ c && c ≤ 'z') &&
        cs.all (fun ch => ('a' ≤ ch && ch ≤ 'z') || ('0' ≤ ch && ch ≤ '9') || ch = '_')

/-- Evaluation of `process.env.GITHUB_REPO || 'VBHC-UHY/whitesalary-plugins'`. -/
def resolveRepo : Option String → String
  | some s => if s = "" then "VBHC-UHY/whitesalary-plugins" else s
  | none => "VBHC-UHY/whitesalary-plugins"

/-- Test `!GITHUB_TOKEN`: the credential is absent or empty. -/
def tokenMissing : Option String → Bool
  | some s => s = ""
  | none => true

/-- URL of the plugin source file `plugins/<id>/plugin.py`. -/
def pluginFileUrl (repo idStr : String) : String :=
  "https://api.github.com/repos/" ++ repo ++ "/contents/plugins/" ++ idStr ++ "/plugin.py"

/-- URL of the plugin config file `plugins/<id>/config.json`. -/
def configFileUrl (repo idStr : String) : String :=
  "https://api.github.com/repos/" ++ repo ++ "/contents/plugins/" ++ idStr ++ "/config.json"

/-- URL of the shared index `plugins.json`. -/
def indexFileUrl (repo : String) : String :=
  "https://api.github.com/repos/" ++ repo ++ "/contents/plugins.json"

/-- Model of `Buffer.from(data.code).toString('base64')`.  `Buffer.from` on the
non-string values representable here raises (or degenerates); this model
treats every non-string argument as the thrown `TypeError`, reported
through the handler's catch-all. -/
def bufferToBase64? : JSVal → Option String
  | .str s => some (toBase64 s)
  | _ => none

/-- Message of the `TypeError` modelled for `Buffer.from` on a non-string
(the exact Node.js wording is version-dependent). -/
def bufferTypeError : String :=
  "The first argument must be of type string or an instance of Buffer, ArrayBuffer, or Array or an Array-like Object."

/-- The `configContent` object literal of the source, as the JSON document
`JSON.stringify` serializes: normalized submission fields plus defaults. -/
def configJson (data : Body) : Json :=
  .obj [
    ("id", data.id.toJson),
    ("name", data.id.toJson),
    ("cn_name", data.cn_name.toJson),
    ("version", (jsOr data.version (.str "1.0.0")).toJson),
    ("author", data.author.toJson),
    ("description", data.description.toJson),
    ("full_description", (jsOr data.full_description data.description).toJson),
    ("category", (jsOr data.category (.str "工具")).toJson),
    ("keywords", .arr []),
    ("triggers", (jsOr data.commands (.arr [])).toJson),
    ("features", (jsOr data.features (.arr [])).toJson),
    ("usage", (jsOr data.usage (.str "")).toJson),
    ("commands", (jsOr data.commands (.arr [])).toJson),
    ("changelog", (jsOr data.changelog (.str "v1.0.0 - 初始版本")).toJson),
    ("notes", (jsOr data.notes (.str "")).toJson),
    ("featured", .bool false)
  ]

/-- The content field uploaded for `plugins/<id>/config.json`:
`Buffer.from(JSON.stringify(configContent, null, 2)).toString('base64')`. -/
def configUpload (data : Body) : String := toBase64 (stringifyTop (configJson data))

/-- What a consumer of the Contents API does with an uploaded content
field: base64-decode it, then `JSON.parse` the decoded text. -/
def decodeUpload (s : String) : Option Json := (fromBase64 s).bind parseJson

/-- The `newPlugin` object literal appended to the index, as a JSON
document: the config fields plus `downloads`, `rating` and `download_url`. -/
def newPluginJson (data : Body) (repo : String) : Json :=
  .obj [
    ("id", data.id.toJson),
    ("name", data.id.toJson),
    ("cn_name", data.cn_name.toJson),
    ("version", (jsOr data.version (.str "1.0.0")).toJson),
    ("author", data.author.toJson),
    ("description", data.description.toJson),
    ("full_description", (jsOr data.full_description data.description).toJson),
    ("category", (jsOr data.category (.str "工具")).toJson),
    ("keywords", .arr []),
    ("triggers", (jsOr data.commands (.arr [])).toJson),
    ("features", (jsOr data.features (.arr [])).toJson),
    ("usage", (jsOr data.usage (.str "")).toJson),
    ("commands", (jsOr data.commands (.arr [])).toJson),
    ("changelog", (jsOr data.changelog (.str "v1.0.0 - 初始版本")).toJson),
    ("notes", (jsOr data.notes (.str "")).toJson),
    ("downloads", .num 0),
    ("rating", .num 5),
    ("featured", .bool false),
    ("download_url", .str ("https://raw.githubusercontent.com/" ++ repo ++ "/main/plugins/" ++ jsToString data.id))
  ]

/-- Value of `pluginsData.plugins` after the index fetch: the fetched list, or the
empty list of the freshly initialized document. -/
def indexPlugins : Option IndexFile → List Json
  | some f => f.plugins
  | none => []

/-- Value of `pluginsData.version` after the index fetch. -/
def indexVersion : Option IndexFile → String
  | some f => f.version
  | none => "1.0.0"

/-- The concurrency token captured by the index fetch (`null` when the
fetch was not `ok`). -/
def indexSha : Option IndexFile → Option String
  | some f => some f.sha
  | none => none

/-- Step `if (sha) updateData.sha = sha`: the token is attached only when truthy. -/
def shaField : Option String → Option String
  | some s => if s = "" then none else some s
  | none => none

/-- The duplicate check: `existingIds.includes(pluginId)` over
`pluginsData.plugins.map(p => p.id)`. -/
def dupHit (data : Body) (plugins : List Json) : Bool :=
  plugins.any (fun p => jsSameValue data.id (p.getField? "id"))

/-- The updated index document that is serialized for the final write:
the new plugin appended and `last_updated` set to today's date. -/
def indexUploadJson (data : Body) (env : Env) (repo : String) : Json :=
  .obj [
    ("version", .str (indexVersion env.indexFetch)),
    ("last_updated", .str env.today),
    ("plugins", .arr (indexPlugins env.indexFetch ++ [newPluginJson data repo]))
  ]

/-- Steps 9-12 of the handler: fetch the index, check for a duplicate id,
append the new entry and issue the final (unchecked) write. -/
def updateIndex (data : Body) (env : Env) (repo : String) : Response × List Effect :=
  let url := indexFileUrl repo
  if dupHit data (indexPlugins env.indexFetch) then
    (⟨400, false, some "该插件ID已存在", none⟩, [.getIndex url])
  else
    let put : PutData :=
      ⟨"Add plugin to list: " ++ jsToString data.cn_name,
        toBase64 (stringifyTop (indexUploadJson data env repo)), "main",
        shaField (indexSha env.indexFetch)⟩
    (⟨200, true, none, some ("插件 " ++ jsToString data.cn_name ++ " 提交成功！")⟩,
      [.getIndex url, .putIndex url put])

/-- Step 8 of the handler: upload `config.json`, aborting with 500 on a
non-`ok` upstream status. -/
def uploadConfig (data : Body) (env : Env) (repo idStr : String) : Response × List Effect :=
  let url := configFileUrl repo idStr
  let put : PutData := ⟨"Add config for: " ++ jsToString data.cn_name, configUpload data, "main", none⟩
  if !fetchOk env.configPutStatus then
    (⟨500, false, some ("上传 config.json 失败: " ++ natStr env.configPutStatus), none⟩,
      [.putConfigFile url put])
  else
    let next := updateIndex data env repo
    (next.1, .putConfigFile url put :: next.2)

/-- Step 7 of the handler: upload `plugin.py`, aborting with 500 on a
non-`ok` upstream status. -/
def uploadPlugin (data : Body) (env : Env) (repo idStr : String) : Response × List Effect :=
  match bufferToBase64? data.code with
  | none => (⟨500, false, some bufferTypeError, none⟩, [])
  | some content =>
    let url := pluginFileUrl repo idStr
    let put : PutData := ⟨"Add plugin: " ++ jsToString data.cn_name, content, "main", none⟩
    if !fetchOk env.pluginPutStatus then
      (⟨500, false, some ("上传 plugin.py 失败: " ++ natStr env.pluginPutStatus), none⟩,
        [.putPluginFile url put])
    else
      let next := uploadConfig data env repo idStr
      (next.1, .putPluginFile url put :: next.2)

/-- Step 5 of the handler: resolve the repository (with fallback) and abort
with 500 when the credential is missing, before any network call. -/
def configGate (data : Body) (env : Env) : Response × List Effect :=
  let repo := resolveRepo env.githubRepo
  if tokenMissing env.githubToken then
    (⟨500, false, some "GitHub Token 未配置", none⟩, [])
  else uploadPlugin data env repo (jsToString data.id)

/-- Steps 3-4 of the handler: required-field loop, then the id-format test. -/
def submitCore (data : Body) (env : Env) : Response × List Effect :=
  match firstMissing data with
  | some field => (⟨400, false, some ("缺少必填字段: " ++ field), none⟩, [])
  | none =>
    if !idOk (jsToString data.id) then
      (⟨400, false, some "插件ID格式不正确", none⟩, [])
    else configGate data env

/-- The exported request handler: the method gate (which precedes the CORS
`setHeader` calls), the CORS headers, then the try-block body. -/
def handler (method : String) (data : Body) (env : Env) : Response × List Effect :=
  if method ≠ "POST" then
    (⟨405, false, some "Method not allowed", none⟩, [])
  else
    let next := submitCore data env
    (next.1, corsEffects ++ next.2)

/-- A complete well-formed submission (concrete test fixture). -/
def bodyFull : Body :=
  { id := .str "newplug", cn_name := .str "测试", author := .str "a",
    description := .str "d", code := .str "print(1)" }

/-- The empty request body (every field absent). -/
def bodyEmpty : Body := {}

/-- A submission whose id violates the format pattern. -/
def bodyBadId : Body := { bodyFull with id := .str "Abc" }

/-- An environment with a credential, default repository, successful file
writes and a missing index file. -/
def envOk : Env :=
  { githubToken := some "t", githubRepo := none, pluginPutStatus := 201,
    configPutStatus := 201, indexFetch := none, indexPutStatus := 200,
    today := "2026-10-11" }

/-- Environment `envOk` without the credential. -/
def envNoToken : Env := { envOk with githubToken := none }

/-- Environment `envOk` with the source-file write failing upstream. -/
def envPluginFail : Env := { envOk with pluginPutStatus := 422 }

/-- A fetched index that already contains the id of `bodyFull`. -/
def dupIndexFile : IndexFile :=
  { version := "1.0.0", last_updated := "2026-01-01",
    plugins := [Json.obj [("id", Json.str "newplug")]], sha := "abc123" }

/-- Environment `envOk` with the duplicate-containing index present. -/
def envDup : Env := { envOk with indexFetch := some dupIndexFile }

/-!  ## Theorems  -/

/-- C1 (counterexample): a `GET` request is answered 405 with an empty
effect trace — in particular no CORS header is set, contradicting the claim
that every response (including the 405 one) carries them: the method gate
returns before the `setHeader` calls. -/
theorem c1_counterexample :
    handler "GET" bodyFull envOk =
      ({ status := 405, success := false, error := some "Method not allowed", message := none },
        ([] : List Effect)) ∧
    Effect.setHeader "Access-Control-Allow-Origin" "*" ∉ (handler "GET" bodyFull envOk).2 := by
  constructor
  · rfl
  · intro h
    rw [show (handler "GET" bodyFull envOk).2 = [] from rfl] at h
    exact List.not_mem_nil _ h

/-- C1 (amended): every POST response carries the three CORS headers
(`Access-Control-Allow-Origin: *`, `Access-Control-Allow-Methods: POST`,
`Access-Control-Allow-Headers: Content-Type`) regardless of outcome, but a
request with any other method is answered 405 with no CORS headers set. -/
theorem c1_cors_post_only :
    (∀ (data : Body) (env : Env), ∃ rest, (handler "POST" data env).2 = corsEffects ++ rest) ∧
    (∀ (m : String) (data : Body) (env : Env), m ≠ "POST" →
      handler m data env =
        ({ status := 405, success := false, error := some "Method not allowed", message := none },
          ([] : List Effect))) := by
  constructor
  · intro data env
    exact ⟨(submitCore data env).2, by simp [handler]⟩
  · intro m data env h
    simp [handler, h]

/-- C1 (witness): the amended theorem applied to a concrete `PUT` request. -/
theorem c1_witness :
    handler "PUT" bodyEmpty envOk =
      ({ status := 405, success := false, error := some "Method not allowed", message := none },
        ([] : List Effect)) :=
  c1_cors_post_only.2 "PUT" bodyEmpty envOk (by decide)

/-- C2: a POST whose first falsy required field (in the fixed order
id, cn_name, author, description, code) is `f` is answered 400 with the
message naming `f`, with no effect beyond the CORS headers. -/
theorem c2_required_field_gate (data : Body) (env : Env) (f : String)
    (h : firstMissing data = some f) :
    handler "POST" data env =
      ({ status := 400, success := false, error := some ("缺少必填字段: " ++ f), message := none },
        corsEffects) := by
  simp [handler, submitCore, h]

/-- C2 (witness): the empty body is rejected for `id`, the first field in
the declared order, even though all later fields are missing too. -/
theorem c2_witness :
    firstMissing bodyEmpty = some "id" ∧
    handler "POST" bodyEmpty envOk =
      ({ status := 400, success := false, error := some ("缺少必填字段: " ++ "id"), message := none },
        corsEffects) :=
  ⟨rfl, c2_required_field_gate bodyEmpty envOk "id" rfl⟩

/-- C3: with all required fields present, an id failing the full-match
pattern `^[a-z][a-z0-9_]*$` yields 400 and stops; an id matching it passes
the format validation and processing continues with the configuration gate. -/
theorem c3_id_format_gate (data : Body) (env : Env) (h : firstMissing data = none) :
    (idOk (jsToString data.id) = false →
      handler "POST" data env =
        ({ status := 400, success := false, error := some "插件ID格式不正确", message := none },
          corsEffects)) ∧
    (idOk (jsToString data.id) = true →
      handler "POST" data env =
        ((configGate data env).1, corsEffects ++ (configGate data env).2)) := by
  constructor <;> intro hid <;> simp [handler, submitCore, h, hid]

/-- C3 (witness): `"Abc"` fails the pattern and is answered 400. -/
theorem c3_witness :
    handler "POST" bodyBadId envOk =
      ({ status := 400, success := false, error := some "插件ID格式不正确", message := none },
        corsEffects) :=
  (c3_id_format_gate bodyBadId envOk rfl).1 (by decide)

/-- C4: with valid fields and id, a missing credential yields 500 before
any network effect; the repository identifier falls back to the hardcoded
default when unset. -/
theorem c4_token_gate (data : Body) (env : Env)
    (hreq : firstMissing data = none) (hid : idOk (jsToString data.id) = true)
    (htok : env.githubToken = none) :
    handler "POST" data env =
      ({ status := 500, success := false, error := some "GitHub Token 未配置", message := none },
        corsEffects) ∧
    resolveRepo none = "VBHC-UHY/whitesalary-plugins" := by
  refine ⟨?_, rfl⟩
  simp [handler, submitCore, configGate, hreq, hid, htok, tokenMissing]

/-- C4 (witness): concrete valid body with no credential configured. -/
theorem c4_witness :
    handler "POST" bodyFull envNoToken =
      ({ status := 500, success := false, error := some "GitHub Token 未配置", message := none },
        corsEffects) :=
  (c4_token_gate bodyFull envNoToken rfl (by decide) rfl).1

/-- C5: when the `plugin.py` write returns a non-success status, the
handler answers 500 with the upstream status embedded in the message, and
the trace shows that neither the config write nor any index access was
attempted. -/
theorem c5_source_write_failure (data : Body) (env : Env) (s : String)
    (hreq : firstMissing data = none) (hid : idOk (jsToString data.id) = true)
    (htok : tokenMissing env.githubToken = false) (hcode : data.code = .str s)
    (hfail : fetchOk env.pluginPutStatus = false) :
    handler "POST" data env =
      ({ status := 500, success := false,
         error := some ("上传 plugin.py 失败: " ++ natStr env.pluginPutStatus), message := none },
        corsEffects ++
          [Effect.putPluginFile (pluginFileUrl (resolveRepo env.githubRepo) (jsToString data.id))
            { message := "Add plugin: " ++ jsToString data.cn_name, content := toBase64 s,
              branch := "main", sha := none }]) := by
  simp [handler, submitCore, configGate, uploadPlugin, bufferToBase64?, hreq, hid, htok, hcode, hfail]

/-- C5 (witness): a concrete valid submission with the source write
failing with status 422. -/
theorem c5_witness :
    handler "POST" bodyFull envPluginFail =
      ({ status := 500, success := false,
         error := some ("上传 plugin.py 失败: " ++ natStr envPluginFail.pluginPutStatus), message := none },
        corsEffects ++
          [Effect.putPluginFile (pluginFileUrl (resolveRepo envPluginFail.githubRepo) (jsToString bodyFull.id))
            { message := "Add plugin: " ++ jsToString bodyFull.cn_name, content := toBase64 "print(1)",
              branch := "main", sha := none }]) :=
  c5_source_write_failure bodyFull envPluginFail "print(1)" rfl (by decide) rfl rfl (by decide)

/-- C6: an id already present among the ids of the fetched index is
rejected 400 with the duplicate message, without any index write — but the
trace shows the source and config files were already written for it. -/
theorem c6_duplicate_after_writes (data : Body) (env : Env) (s idS : String) (file : IndexFile)
    (hreq : firstMissing data = none) (hid : idOk (jsToString data.id) = true)
    (htok : tokenMissing env.githubToken = false) (hcode : data.code = .str s)
    (hplug : fetchOk env.pluginPutStatus = true) (hconf : fetchOk env.configPutStatus = true)
    (hfetch : env.indexFetch = some file) (hids : data.id = .str idS)
    (hdup : some (Json.str idS) ∈ file.plugins.map (fun p => p.getField? "id")) :
    handler "POST" data env =
      ({ status := 400, success := false, error := some "该插件ID已存在", message := none },
        corsEffects ++
          [Effect.putPluginFile (pluginFileUrl (resolveRepo env.githubRepo) (jsToString data.id))
            { message := "Add plugin: " ++ jsToString data.cn_name, content := toBase64 s,
              branch := "main", sha := none },
           Effect.putConfigFile (configFileUrl (resolveRepo env.githubRepo) (jsToString data.id))
            { message := "Add config for: " ++ jsToString data.cn_name, content := configUpload data,
              branch := "main", sha := none },
           Effect.getIndex (indexFileUrl (resolveRepo env.githubRepo))]) := by
  have hd : dupHit data (indexPlugins env.indexFetch) = true := by
    rw [hfetch]
    simp only [indexPlugins, dupHit, List.any_eq_true]
    rcases List.mem_map.1 hdup with ⟨p, hp, hpe⟩
    exact ⟨p, hp, by rw [hids, hpe]; simp [jsSameValue]⟩
  simp [handler, submitCore, configGate, uploadPlugin, uploadConfig, updateIndex,
        bufferToBase64?, hreq, hid, htok, hcode, hplug, hconf, hd]

/-- C6 (witness): concrete duplicate submission (the fetched index already
lists `newplug`), rejected 400 after both file writes. -/
theorem c6_witness :
    handler "POST" bodyFull envDup =
      ({ status := 400, success := false, error := some "该插件ID已存在", message := none },
        corsEffects ++
          [Effect.putPluginFile (pluginFileUrl (resolveRepo envDup.githubRepo) (jsToString bodyFull.id))
            { message := "Add plugin: " ++ jsToString bodyFull.cn_name, content := toBase64 "print(1)",
              branch := "main", sha := none },
           Effect.putConfigFile (configFileUrl (resolveRepo envDup.githubRepo) (jsToString bodyFull.id))
            { message := "Add config for: " ++ jsToString bodyFull.cn_name, content := configUpload bodyFull,
              branch := "main", sha := none },
           Effect.getIndex (indexFileUrl (resolveRepo envDup.githubRepo))]) :=
  c6_duplicate_after_writes bodyFull envDup "print(1)" "newplug" dupIndexFile
    rfl (by decide) rfl rfl (by decide) (by decide) rfl rfl
    (by simp [dupIndexFile, Json.getField?, lookupField])

/-- C7: a valid submission passing the duplicate check is answered 200
with the localized success message; the response does not depend on the
status of the final index write (which is issued but never inspected). -/
theorem c7_success_ignores_final_write (data : Body) (env : Env) (s : String)
    (hreq : firstMissing data = none) (hid : idOk (jsToString data.id) = true)
    (htok : tokenMissing env.githubToken = false) (hcode : data.code = .str s)
    (hplug : fetchOk env.pluginPutStatus = true) (hconf : fetchOk env.configPutStatus = true)
    (hdup : dupHit data (indexPlugins env.indexFetch) = false) :
    (∀ r : Nat, handler "POST" data { env with indexPutStatus := r } = handler "POST" data env) ∧
    (handler "POST" data env).1 =
      { status := 200, success := true, error := none,
        message := some ("插件 " ++ jsToString data.cn_name ++ " 提交成功！") } ∧
    (handler "POST" data env).2 =
      corsEffects ++
        [Effect.putPluginFile (pluginFileUrl (resolveRepo env.githubRepo) (jsToString data.id))
          { message := "Add plugin: " ++ jsToString data.cn_name, content := toBase64 s,
            branch := "main", sha := none },
         Effect.putConfigFile (configFileUrl (resolveRepo env.githubRepo) (jsToString data.id))
          { message := "Add config for: " ++ jsToString data.cn_name, content := configUpload data,
            branch := "main", sha := none },
         Effect.getIndex (indexFileUrl (resolveRepo env.githubRepo)),
         Effect.putIndex (indexFileUrl (resolveRepo env.githubRepo))
          { message := "Add plugin to list: " ++ jsToString data.cn_name,
            content := toBase64 (stringifyTop (indexUploadJson data env (resolveRepo env.githubRepo))),
            branch := "main", sha := shaField (indexSha env.indexFetch) }] := by
  refine ⟨?_, ?_, ?_⟩
  · intro r
    simp [handler, submitCore, configGate, uploadPlugin, uploadConfig, updateIndex,
          indexUploadJson, bufferToBase64?, hreq, hid, htok, hcode, hplug, hconf, hdup]
  · simp [handler, submitCore, configGate, uploadPlugin, uploadConfig, updateIndex,
          bufferToBase64?, hreq, hid, htok, hcode, hplug, hconf, hdup]
  · simp [handler, submitCore, configGate, uploadPlugin, uploadConfig, updateIndex,
          bufferToBase64?, hreq, hid, htok, hcode, hplug, hconf, hdup]

/-- C7 (witness): a concrete successful submission; changing the status of
the final index write does not change the handler's output. -/
theorem c7_witness :
    handler "POST" bodyFull { envOk with indexPutStatus := 500 } = handler "POST" bodyFull envOk ∧
    (handler "POST" bodyFull envOk).1 =
      { status := 200, success := true, error := none,
        message := some ("插件 " ++ jsToString bodyFull.cn_name ++ " 提交成功！") } := by
  have h := c7_success_ignores_final_write bodyFull envOk "print(1)"
    rfl (by decide) rfl rfl (by decide) (by decide) rfl
  exact ⟨h.1 500, h.2.1⟩

/-- C9: the index entry agrees with the config document on every shared
field, and additionally carries `downloads = 0`, `rating = 5.0` and the
`download_url` built from the fixed base URL, the repository identifier,
`/main/plugins/` and the plugin id. -/
theorem c9_entry_agrees_with_config (data : Body) (repo : String) :
    ((newPluginJson data repo).getField? "id" = (configJson data).getField? "id") ∧
    ((newPluginJson data repo).getField? "name" = (configJson data).getField? "name") ∧
    ((newPluginJson data repo).getField? "cn_name" = (configJson data).getField? "cn_name") ∧
    ((newPluginJson data repo).getField? "version" = (configJson data).getField? "version") ∧
    ((newPluginJson data repo).getField? "author" = (configJson data).getField? "author") ∧
    ((newPluginJson data repo).getField? "description" = (configJson data).getField? "description") ∧
    ((newPluginJson data repo).getField? "full_description" = (configJson data).getField? "full_description") ∧
    ((newPluginJson data repo).getField? "category" = (configJson data).getField? "category") ∧
    ((newPluginJson data repo).getField? "keywords" = (configJson data).getField? "keywords") ∧
    ((newPluginJson data repo).getField? "triggers" = (configJson data).getField? "triggers") ∧
    ((newPluginJson data repo).getField? "features" = (configJson data).getField? "features") ∧
    ((newPluginJson data repo).getField? "usage" = (configJson data).getField? "usage") ∧
    ((newPluginJson data repo).getField? "commands" = (configJson data).getField? "commands") ∧
    ((newPluginJson data repo).getField? "changelog" = (configJson data).getField? "changelog") ∧
    ((newPluginJson data repo).getField? "notes" = (configJson data).getField? "notes") ∧
    ((newPluginJson data repo).getField? "featured" = (configJson data).getField? "featured") ∧
    ((newPluginJson data repo).getField? "downloads" = some (.num 0)) ∧
    ((newPluginJson data repo).getField? "rating" = some (.num 5)) ∧
    ((newPluginJson data repo).getField? "download_url" =
      some (.str ("https://raw.githubusercontent.com/" ++ repo ++ "/main/plugins/" ++ jsToString data.id))) :=
  ⟨rfl, rfl, rfl, rfl, rfl, rfl, rfl, rfl, rfl, rfl, rfl, rfl, rfl, rfl, rfl, rfl, rfl, rfl, rfl⟩

/-- C10: the defaults for the optional fields not spelled out by the spec:
`full_description` falls back to `description`, `usage` and `notes` to the
empty string, `features` to the empty list, `commands` and `triggers` are
always equal (both `commands || []`), and `keywords` is always empty. -/
theorem c10_optional_defaults (data : Body) :
    ((configJson data).getField? "keywords" = some (.arr [])) ∧
    ((configJson data).getField? "commands" = (configJson data).getField? "triggers") ∧
    (data.full_description.truthy = false →
      (configJson data).getField? "full_description" = some data.description.toJson) ∧
    (data.usage.truthy = false → (configJson data).getField? "usage" = some (.str "")) ∧
    (data.notes.truthy = false → (configJson data).getField? "notes" = some (.str "")) ∧
    (data.features.truthy = false → (configJson data).getField? "features" = some (.arr [])) ∧
    (data.commands.truthy = false →
      (configJson data).getField? "commands" = some (.arr []) ∧
      (configJson data).getField? "triggers" = some (.arr [])) := by
  refine ⟨rfl, rfl, ?_, ?_, ?_, ?_, ?_⟩ <;> intro h <;>
    simp [configJson, Json.getField?, lookupField, jsOr, h, JSVal.toJson, toJsonList]

/-- C10 (witness): the defaults instantiated on the empty body. -/
theorem c10_witness :
    (configJson bodyEmpty).getField? "usage" = some (.str "") ∧
    (configJson bodyEmpty).getField? "notes" = some (.str "") ∧
    (configJson bodyEmpty).getField? "features" = some (.arr []) ∧
    (configJson bodyEmpty).getField? "commands" = some (.arr []) ∧
    (configJson bodyEmpty).getField? "keywords" = some (.arr []) := by
  have h := c10_optional_defaults bodyEmpty
  exact ⟨h.2.2.2.1 rfl, h.2.2.2.2.1 rfl, h.2.2.2.2.2.1 rfl, (h.2.2.2.2.2.2 rfl).1, h.1⟩

/-!  ### Character-level facts  -/

theorem char_toNat_ofNat {n : Nat} (h : n.isValidChar) : (Char.ofNat n).toNat = n := by
  rw [Char.ofNat, dif_pos h]
  rfl

theorem char_toNat_valid (c : Char) : c.toNat.isValidChar := c.valid

theorem char_toNat_lt (c : Char) : c.toNat < 0x110000 := by
  rcases char_toNat_valid c with h | h <;> omega

theorem char_eq_of_toNat {a b : Char} (h : a.toNat = b.toNat) : a = b := by
  have := char_toNat_ofNat (char_toNat_valid a)
  rw [← Char.ofNat_toNat a, ← Char.ofNat_toNat b, h]

/-!  ### Base64 round-trip  -/

theorem b64Val_b64Char : ∀ i < 64, b64Val? (b64Char i) = some i := by decide

theorem b64Char_ne_pad : ∀ i < 64, b64Char i ≠ '=' := by decide

theorem base64_decode_encode (bs : List Nat) (h : ∀ b ∈ bs, b < 256) :
    base64DecodeChunks (base64Chunks bs) = some bs := by
  induction bs using base64Chunks.induct with
  | case1 b1 b2 b3 rest ih =>
      have h1 : b1 < 256 := h b1 (by simp)
      have h2 : b2 < 256 := h b2 (by simp)
      have h3 : b3 < 256 := h b3 (by simp)
      rw [base64Chunks, base64DecodeChunks,
          if_neg (b64Char_ne_pad _ (by omega)),
          if_neg (b64Char_ne_pad _ (by omega)),
          b64Val_b64Char _ (by omega), b64Val_b64Char _ (by omega),
          b64Val_b64Char _ (by omega), b64Val_b64Char _ (by omega)]
      dsimp only
      rw [ih (fun b hb => h b (by simp [hb]))]
      simp only [Option.map_some', Option.some.injEq, List.cons.injEq, and_true]
      omega
  | case2 b1 b2 =>
      have h1 : b1 < 256 := h b1 (by simp)
      have h2 : b2 < 256 := h b2 (by simp)
      rw [base64Chunks, base64DecodeChunks,
          if_neg (b64Char_ne_pad _ (by omega)), if_pos rfl, if_pos rfl,
          b64Val_b64Char _ (by omega), b64Val_b64Char _ (by omega),
          b64Val_b64Char _ (by omega)]
      dsimp only
      rw [if_pos (by omega)]
      simp only [Option.some.injEq, List.cons.injEq, and_true]
      omega
  | case3 b1 =>
      have h1 : b1 < 256 := h b1 (by simp)
      rw [base64Chunks, base64DecodeChunks, if_pos rfl, if_pos ⟨rfl, rfl⟩,
          b64Val_b64Char _ (by omega), b64Val_b64Char _ (by omega)]
      dsimp only
      rw [if_pos (by omega)]
      simp only [Option.some.injEq, List.cons.injEq, and_true]
      omega
  | case4 => rfl

/-!  ### UTF-8 round-trip  -/

theorem utf8Bytes_lt {n : Nat} (hn : n < 0x110000) : ∀ b ∈ utf8Bytes n, b < 256 := by
  intro b hb
  unfold utf8Bytes at hb
  split_ifs at hb <;> simp at hb <;> omega

theorem utf8Encode_lt (cs : List Char) : ∀ b ∈ utf8Encode cs, b < 256 := by
  induction cs with
  | nil => intro b hb; simp [utf8Encode] at hb
  | cons c cs ih =>
      intro b hb
      rw [utf8Encode] at hb
      rcases List.mem_append.1 hb with h | h
      · exact utf8Bytes_lt (char_toNat_lt c) b h
      · exact ih b h

theorem utf8_decode_one (c : Char) (bs : List Nat) :
    utf8Decode (utf8Bytes c.toNat ++ bs) = (utf8Decode bs).map (fun cs => c :: cs) := by
  have hv := char_toNat_valid c
  have hlt := char_toNat_lt c
  by_cases h1 : c.toNat < 0x80
  · rw [show utf8Bytes c.toNat = [c.toNat] from by rw [utf8Bytes, if_pos h1]]
    rw [List.singleton_append, utf8Decode, if_pos h1, Char.ofNat_toNat]
  · by_cases h2 : c.toNat < 0x800
    · rw [show utf8Bytes c.toNat = [0xc0 + c.toNat / 64, 0x80 + c.toNat % 64] from by
        rw [utf8Bytes, if_neg h1, if_pos h2]]
      rw [List.cons_append, List.singleton_append, utf8Decode,
          if_neg (by omega), if_pos (by constructor <;> omega)]
      rw [show 0xc0 + c.toNat / 64 - 0xc0 = c.toNat / 64 from by omega, utf8Cont1]
      rw [show c.toNat / 64 * 64 + (0x80 + c.toNat % 64 - 0x80) = c.toNat from by omega]
      rw [if_pos ⟨by simp [isCont]; omega, by omega⟩, Char.ofNat_toNat]
    · by_cases h3 : c.toNat < 0x10000
      · rw [show utf8Bytes c.toNat =
            [0xe0 + c.toNat / 4096, 0x80 + c.toNat / 64 % 64, 0x80 + c.toNat % 64] from by
          rw [utf8Bytes, if_neg h1, if_neg h2, if_pos h3]]
        rw [List.cons_append, List.cons_append, List.singleton_append, utf8Decode,
            if_neg (by omega), if_neg (by omega), if_pos (by constructor <;> omega)]
        rw [show 0xe0 + c.toNat / 4096 - 0xe0 = c.toNat / 4096 from by omega, utf8Cont2]
        rw [show c.toNat / 4096 * 4096 + (0x80 + c.toNat / 64 % 64 - 0x80) * 64 +
              (0x80 + c.toNat % 64 - 0x80) = c.toNat from by omega]
        rw [if_pos ⟨by simp [isCont]; omega, by simp [isCont]; omega, by omega, hv⟩,
            Char.ofNat_toNat]
      · rw [show utf8Bytes c.toNat =
            [0xf0 + c.toNat / 262144, 0x80 + c.toNat / 4096 % 64,
             0x80 + c.toNat / 64 % 64, 0x80 + c.toNat % 64] from by
          rw [utf8Bytes, if_neg h1, if_neg h2, if_neg h3]]
        rw [List.cons_append, List.cons_append, List.cons_append, List.singleton_append,
            utf8Decode, if_neg (by omega), if_neg (by omega), if_neg (by omega),
            if_pos (by constructor <;> omega)]
        rw [show 0xf0 + c.toNat / 262144 - 0xf0 = c.toNat / 262144 from by omega, utf8Cont3]
        rw [show c.toNat / 262144 * 262144 + (0x80 + c.toNat / 4096 % 64 - 0x80) * 4096 +
              (0x80 + c.toNat / 64 % 64 - 0x80) * 64 + (0x80 + c.toNat % 64 - 0x80) = c.toNat
            from by omega]
        rw [if_pos ⟨by simp [isCont]; omega, by simp [isCont]; omega, by simp [isCont]; omega,
              by omega, by omega⟩,
            Char.ofNat_toNat]

theorem utf8_decode_encode (cs : List Char) : utf8Decode (utf8Encode cs) = some cs := by
  induction cs with
  | nil => rw [show utf8Encode [] = ([] : List Nat) from rfl, utf8Decode]
  | cons c cs ih => rw [utf8Encode, utf8_decode_one, ih]; rfl

theorem fromBase64_toBase64 (s : String) : fromBase64 (toBase64 s) = some s := by
  unfold fromBase64 toBase64
  rw [show (String.mk (base64Chunks (utf8Encode s.data))).data
        = base64Chunks (utf8Encode s.data) from rfl,
      base64_decode_encode _ (utf8Encode_lt s.data)]
  dsimp only
  rw [utf8_decode_encode]

/-!  ### Whitespace and character-class facts  -/

theorem char_ne_of_toNat_ne {a b : Char} (h : a.toNat ≠ b.toNat) : a ≠ b :=
  fun e => h (congrArg Char.toNat e)

theorem skipWs_ws_append {l : List Char} (r : List Char)
    (h : ∀ ch ∈ l, isWsChar ch = true) : skipWs (l ++ r) = skipWs r := by
  induction l with
  | nil => rfl
  | cons c cs ih =>
      rw [List.cons_append, skipWs, if_pos (h c (by simp))]
      exact ih (fun ch hch => h ch (by simp [hch]))

theorem skipWs_cons_not_ws {c : Char} (r : List Char) (h : isWsChar c = false) :
    skipWs (c :: r) = c :: r := by
  rw [skipWs, if_neg (by simp [h])]

theorem indentChars_ws (d : Nat) : ∀ ch ∈ indentChars d, isWsChar ch = true := by
  intro ch hch
  rw [indentChars] at hch
  rw [List.eq_of_mem_replicate hch]
  decide

theorem isDig_bounds {c : Char} (h : isDigChar c = true) : 48 ≤ c.toNat ∧ c.toNat ≤ 57 := by
  simpa [isDigChar] using h

theorem isDig_not_ws {c : Char} (h : isDigChar c = true) : isWsChar c = false := by
  have := isDig_bounds h
  simp [isWsChar]
  omega

theorem digitStart_of_skipWs {t : List Char} {c : Char} {r : List Char}
    (h : skipWs t = c :: r) (hc : isDigChar c = false) : digitStart t = false := by
  induction t with
  | nil => rfl
  | cons c0 t0 ih =>
      rw [skipWs] at h
      by_cases hws : isWsChar c0 = true
      · rw [digitStart]
        cases hdig : isDigChar c0
        · rfl
        · rw [isDig_not_ws hdig] at hws; exact absurd hws (by simp)
      · rw [if_neg (by simpa using hws)] at h
        cases h
        rw [digitStart]
        exact hc

/-!  ### Literal keywords  -/

theorem expectChars_append (es r : List Char) : expectChars es (es ++ r) = some r := by
  induction es with
  | nil => rfl
  | cons e es ih => rw [List.cons_append, expectChars, if_pos rfl]; exact ih

/-!  ### Decimal integers round-trip  -/

theorem decDigit_toNat {i : Nat} (h : i < 10) : (decDigit i).toNat = 48 + i := by
  rw [decDigit, char_toNat_ofNat (Or.inl (by omega))]

theorem isDig_decDigit {i : Nat} (h : i < 10) : isDigChar (decDigit i) = true := by
  have := decDigit_toNat h
  simp [isDigChar]
  omega

theorem natChars_digits (n : Nat) : ∀ c ∈ natChars n, isDigChar c = true := by
  induction n using natChars.induct with
  | case1 n h =>
      intro c hc
      rw [natChars, dif_pos h] at hc
      simp at hc
      rw [hc]
      exact isDig_decDigit h
  | case2 n h ih =>
      intro c hc
      rw [natChars, dif_neg h] at hc
      rcases List.mem_append.1 hc with h2 | h2
      · exact ih c h2
      · simp at h2
        rw [h2]
        exact isDig_decDigit (by omega)

theorem natChars_ne_nil (n : Nat) : natChars n ≠ [] := by
  induction n using natChars.induct with
  | case1 n h => rw [natChars, dif_pos h]; simp
  | case2 n h ih => rw [natChars, dif_neg h]; simp

theorem parseDigits_append (ds : List Char) :
    ∀ (acc : Nat) (rest : List Char), (∀ c ∈ ds, isDigChar c = true) → digitStart rest = false →
    parseDigits acc (ds ++ rest) =
      (List.foldl (fun a c => a * 10 + (c.toNat - 48)) acc ds, rest) := by
  induction ds with
  | nil =>
      intro acc rest _ hr
      cases rest with
      | nil => rfl
      | cons c r =>
          rw [digitStart] at hr
          rw [List.nil_append, parseDigits, if_neg (by simp [hr]), List.foldl_nil]
  | cons d ds ih =>
      intro acc rest hd hr
      rw [List.cons_append, parseDigits, if_pos (hd d (by simp)), List.foldl_cons]
      exact ih _ rest (fun c hc => hd c (by simp [hc])) hr

theorem natChars_foldl (n : Nat) :
    ∀ acc : Nat, List.foldl (fun a c => a * 10 + (c.toNat - 48)) acc (natChars n) =
      acc * 10 ^ (natChars n).length + n := by
  induction n using natChars.induct with
  | case1 n h =>
      intro acc
      rw [natChars, dif_pos h]
      simp [decDigit_toNat h]
      try omega
  | case2 n h ih =>
      intro acc
      rw [natChars, dif_neg h, List.foldl_append, ih, List.length_append,
          List.foldl_cons, List.foldl_nil, decDigit_toNat (show n % 10 < 10 by omega)]
      simp only [List.length_cons, List.length_nil]
      rw [pow_succ, ← Nat.mul_assoc]
      have hpos : 0 < 10 ^ (natChars (n / 10)).length := Nat.pos_pow_of_pos _ (by omega)
      omega

theorem parseIntTok_round (n : Int) (rest : List Char) (hr : digitStart rest = false) :
    parseIntTok (intChars n ++ rest) = some (n, rest) := by
  by_cases hn : n < 0
  · rw [intChars, if_pos hn]
    obtain ⟨c0, t0, hc⟩ : ∃ c0 t0, natChars n.natAbs = c0 :: t0 := by
      cases h : natChars n.natAbs with
      | nil => exact absurd h (natChars_ne_nil _)
      | cons a b => exact ⟨a, b, rfl⟩
    have hdig0 : isDigChar c0 = true := natChars_digits _ c0 (by rw [hc]; simp)
    rw [List.cons_append, parseIntTok.eq_def]
    dsimp only
    rw [if_pos rfl, hc, List.cons_append]
    dsimp only
    rw [if_pos hdig0]
    have hds : parseDigits (c0.toNat - 48) (t0 ++ rest) =
        (List.foldl (fun a c => a * 10 + (c.toNat - 48)) (c0.toNat - 48) t0, rest) :=
      parseDigits_append t0 _ rest
        (fun c hcm => natChars_digits _ c (by rw [hc]; simp [hcm])) hr
    have hfold := natChars_foldl n.natAbs 0
    rw [hc, List.foldl_cons] at hfold
    simp only at hfold hds
    rw [hds]
    simp only [Option.some.injEq, Prod.mk.injEq]
    constructor
    · rw [show c0.toNat - 48 = 0 * 10 + (c0.toNat - 48) from by omega, hfold]
      omega
    · trivial
  · rw [intChars, if_neg hn]
    obtain ⟨c0, t0, hc⟩ : ∃ c0 t0, natChars n.toNat = c0 :: t0 := by
      cases h : natChars n.toNat with
      | nil => exact absurd h (natChars_ne_nil _)
      | cons a b => exact ⟨a, b, rfl⟩
    have hdig0 : isDigChar c0 = true := natChars_digits _ c0 (by rw [hc]; simp)
    have hne : ¬(c0 = '-') := by
      intro he
      have := isDig_bounds hdig0
      rw [he] at this
      simp at this
    rw [hc, List.cons_append, parseIntTok.eq_def]
    dsimp only
    rw [if_neg hne, if_pos hdig0]
    have hds : parseDigits (c0.toNat - 48) (t0 ++ rest) =
        (List.foldl (fun a c => a * 10 + (c.toNat - 48)) (c0.toNat - 48) t0, rest) :=
      parseDigits_append t0 _ rest
        (fun c hcm => natChars_digits _ c (by rw [hc]; simp [hcm])) hr
    have hfold := natChars_foldl n.toNat 0
    rw [hc, List.foldl_cons] at hfold
    simp only at hfold hds
    rw [hds]
    simp only [Option.some.injEq, Prod.mk.injEq]
    constructor
    · rw [show c0.toNat - 48 = 0 * 10 + (c0.toNat - 48) from by omega, hfold]
      omega
    · trivial

/-!  ### JSON string escaping round-trip  -/

theorem string_mk_data (s : String) : String.mk s.data = s := rfl

theorem hexVal_hexDigit : ∀ i < 16, hexVal? (hexDigit i) = some i := by decide

theorem parseStrBody_esc (cs : List Char) :
    ∀ rest, parseStrBody (escString cs ++ ('"' :: rest)) = some (cs, rest) := by
  induction cs with
  | nil =>
      intro rest
      rw [escString, List.nil_append, parseStrBody.eq_def]
      try dsimp only
      rw [if_pos rfl]
  | cons c cs ih =>
      intro rest
      rw [escString, List.append_assoc]
      by_cases h1 : c = '"'
      · subst h1
        rw [show escChar '"' = ['\\', '"'] from rfl, List.cons_append, List.singleton_append,
            parseStrBody.eq_def]
        try dsimp only
        rw [if_neg (by decide), if_pos rfl]
        try dsimp only
        rw [if_pos rfl, ih rest]
        rfl
      · by_cases h2 : c = '\\'
        · subst h2
          rw [show escChar '\\' = ['\\', '\\'] from rfl, List.cons_append, List.singleton_append,
              parseStrBody.eq_def]
          try dsimp only
          rw [if_neg (by decide), if_pos rfl]
          try dsimp only
          rw [if_neg (by decide), if_pos rfl, ih rest]
          rfl
        · by_cases h3 : c = '\n'
          · subst h3
            rw [show escChar '\n' = ['\\', 'n'] from rfl, List.cons_append, List.singleton_append,
                parseStrBody.eq_def]
            try dsimp only
            rw [if_neg (by decide), if_pos rfl]
            try dsimp only
            rw [if_neg (by decide), if_neg (by decide), if_neg (by decide), if_pos rfl, ih rest]
            rfl
          · by_cases h4 : c = '\r'
            · subst h4
              rw [show escChar '\r' = ['\\', 'r'] from rfl, List.cons_append,
                  List.singleton_append, parseStrBody.eq_def]
              try dsimp only
              rw [if_neg (by decide), if_pos rfl]
              try dsimp only
              rw [if_neg (by decide), if_neg (by decide), if_neg (by decide), if_neg (by decide),
                  if_pos rfl, ih rest]
              rfl
            · by_cases h5 : c = '\t'
              · subst h5
                rw [show escChar '\t' = ['\\', 't'] from rfl, List.cons_append,
                    List.singleton_append, parseStrBody.eq_def]
                try dsimp only
                rw [if_neg (by decide), if_pos rfl]
                try dsimp only
                rw [if_neg (by decide), if_neg (by decide), if_neg (by decide),
                    if_neg (by decide), if_neg (by decide), if_pos rfl, ih rest]
                rfl
              · by_cases h6 : c = Char.ofNat 8
                · subst h6
                  rw [show escChar (Char.ofNat 8) = ['\\', 'b'] from by
                        rw [escChar, if_neg (by decide), if_neg (by decide), if_neg (by decide),
                            if_neg (by decide), if_neg (by decide), if_pos rfl],
                      List.cons_append, List.singleton_append, parseStrBody.eq_def]
                  try dsimp only
                  rw [if_neg (by decide), if_pos rfl]
                  try dsimp only
                  rw [if_neg (by decide), if_neg (by decide), if_neg (by decide),
                      if_neg (by decide), if_neg (by decide), if_neg (by decide),
                      if_pos rfl, ih rest]
                  rfl
                · by_cases h7 : c = Char.ofNat 12
                  · subst h7
                    rw [show escChar (Char.ofNat 12) = ['\\', 'f'] from by
                          rw [escChar, if_neg (by decide), if_neg (by decide),
                              if_neg (by decide), if_neg (by decide), if_neg (by decide),
                              if_neg (by decide), if_pos rfl],
                        List.cons_append, List.singleton_append, parseStrBody.eq_def]
                    try dsimp only
                    rw [if_neg (by decide), if_pos rfl]
                    try dsimp only
                    rw [if_neg (by decide), if_neg (by decide), if_neg (by decide),
                        if_neg (by decide), if_neg (by decide), if_neg (by decide),
                        if_neg (by decide), if_pos rfl, ih rest]
                    rfl
                  · by_cases h8 : c.toNat < 32
                    · rw [show escChar c = ['\\', 'u', '0', '0', hexDigit (c.toNat / 16),
                            hexDigit (c.toNat % 16)] from by
                          rw [escChar, if_neg h1, if_neg h2, if_neg h3, if_neg h4, if_neg h5,
                              if_neg h6, if_neg h7, if_pos h8],
                          List.cons_append, List.cons_append, List.cons_append,
                          List.cons_append, List.cons_append, List.singleton_append,
                          parseStrBody.eq_def]
                      try dsimp only
                      rw [if_neg (by decide), if_pos rfl]
                      try dsimp only
                      rw [if_neg (by decide), if_neg (by decide), if_neg (by decide),
                          if_neg (by decide), if_neg (by decide), if_neg (by decide),
                          if_neg (by decide), if_neg (by decide), if_pos rfl]
                      rw [show hexVal? '0' = some 0 from by decide,
                          hexVal_hexDigit _ (show c.toNat / 16 < 16 by omega),
                          hexVal_hexDigit _ (show c.toNat % 16 < 16 by omega)]
                      try dsimp only
                      rw [show ((0 * 16 + 0) * 16 + c.toNat / 16) * 16 + c.toNat % 16 = c.toNat
                            from by omega,
                          if_pos (char_toNat_valid c), ih rest]
                      try dsimp only
                      rw [Char.ofNat_toNat]
                      rfl
                    · rw [show escChar c = [c] from by
                            rw [escChar, if_neg h1, if_neg h2, if_neg h3, if_neg h4, if_neg h5,
                                if_neg h6, if_neg h7, if_neg h8],
                          List.singleton_append, parseStrBody.eq_def]
                      try dsimp only
                      rw [if_neg h1, if_neg h2, if_neg h8, ih rest]
                      rfl

/-!  ### Fuel bounds  -/

theorem json_sizeOf_pos (j : Json) : 0 < sizeOf j := by
  cases j <;> simp

theorem weight_pos (j : Json) : 1 ≤ j.weight := by
  cases j <;> simp [Json.weight]

theorem weight_le_aux : ∀ N : Nat,
    (∀ (j : Json) (d : Nat), sizeOf j ≤ N → j.weight ≤ (stringifyAt d j).length) ∧
    (∀ (x : Json) (xs : List Json) (d : Nat), sizeOf x + sizeOf xs ≤ N →
      1 + x.weight + weightItems xs ≤ (stringifyItems d x xs).length + 1) ∧
    (∀ (k : String) (v : Json) (kvs : List (String × Json)) (d : Nat),
      sizeOf v + sizeOf kvs ≤ N →
      1 + v.weight + weightFields kvs ≤ (stringifyFields d k v kvs).length + 1) := by
  intro N
  induction N with
  | zero =>
      refine ⟨fun j d h => absurd h ?_, fun x xs d h => absurd h ?_, fun k v kvs d h => absurd h ?_⟩
      · have := json_sizeOf_pos j; omega
      · have := json_sizeOf_pos x; omega
      · have := json_sizeOf_pos v; omega
  | succ N ih =>
      obtain ⟨ih1, ih2, ih3⟩ := ih
      refine ⟨?_, ?_, ?_⟩
      · intro j d hs
        cases j with
        | null => simp [stringifyAt, Json.weight]
        | bool b => cases b <;> simp [stringifyAt, Json.weight]
        | num n =>
            have hlen : 1 ≤ (intChars n).length := by
              rw [intChars]
              split_ifs
              · simp
              · have := natChars_ne_nil n.toNat
                cases h : natChars n.toNat with
                | nil => exact absurd h this
                | cons a b => simp [h]
            simp [stringifyAt, Json.weight]
            omega
        | str s => simp [stringifyAt, Json.weight]
        | arr xs =>
            cases xs with
            | nil => simp [stringifyAt, Json.weight, weightItems]
            | cons x xs =>
                have hx : sizeOf x + sizeOf xs ≤ N := by
                  simp at hs
                  have := json_sizeOf_pos x
                  omega
                have h2 := ih2 x xs (d + 1) hx
                simp [stringifyAt, Json.weight, weightItems, indentChars]
                omega
        | obj kvs =>
            cases kvs with
            | nil => simp [stringifyAt, Json.weight, weightFields]
            | cons kv rest =>
                obtain ⟨k, v⟩ := kv
                have hx : sizeOf v + sizeOf rest ≤ N := by
                  simp at hs
                  omega
                have h3 := ih3 k v rest (d + 1) hx
                simp [stringifyAt, Json.weight, weightFields, indentChars]
                omega
      · intro x xs d hs
        cases xs with
        | nil =>
            have hx : sizeOf x ≤ N := by simp at hs; omega
            have h1 := ih1 x d hx
            simp [stringifyItems, weightItems, indentChars]
            omega
        | cons y ys =>
            have hx : sizeOf x ≤ N := by
              simp at hs
              have := json_sizeOf_pos y
              omega
            have hy : sizeOf y + sizeOf ys ≤ N := by
              simp at hs
              have := json_sizeOf_pos x
              omega
            have h1 := ih1 x d hx
            have h2 := ih2 y ys d hy
            simp [stringifyItems, weightItems, indentChars]
            omega
      · intro k v kvs d hs
        cases kvs with
        | nil =>
            have hx : sizeOf v ≤ N := by simp at hs; omega
            have h1 := ih1 v d hx
            simp [stringifyFields, weightFields, indentChars]
            omega
        | cons kv rest =>
            obtain ⟨k2, v2⟩ := kv
            have hx : sizeOf v ≤ N := by
              simp at hs
              have := json_sizeOf_pos v2
              omega
            have hy : sizeOf v2 + sizeOf rest ≤ N := by
              simp at hs
              have := json_sizeOf_pos v
              omega
            have h1 := ih1 v d hx
            have h3 := ih3 k2 v2 rest d hy
            simp [stringifyFields, weightFields, indentChars]
            omega

theorem weight_le_length (j : Json) (d : Nat) : j.weight ≤ (stringifyAt d j).length :=
  (weight_le_aux (sizeOf j)).1 j d le_rfl

/-!  ### Rendering decompositions  -/

theorem stringifyItems_decomp (d : Nat) (x : Json) (xs : List Json) (t : List Char) :
    stringifyItems d x xs ++ t = indentChars d ++ (stringifyAt d x ++ itemsSep d xs t) := by
  cases xs <;> simp [stringifyItems, itemsSep, List.append_assoc]

theorem stringifyFields_decomp (d : Nat) (k : String) (v : Json)
    (kvs : List (String × Json)) (t : List Char) :
    stringifyFields d k v kvs ++ t =
      indentChars d ++ ('"' :: (escString k.data ++
        ('"' :: ':' :: ' ' :: (stringifyAt d v ++ fieldsSep d kvs t)))) := by
  cases kvs with
  | nil => simp [stringifyFields, fieldsSep, List.append_assoc]
  | cons kv rest =>
      obtain ⟨k2, v2⟩ := kv
      simp [stringifyFields, fieldsSep, List.append_assoc]

theorem stringifyAt_head (d : Nat) (j : Json) :
    ∃ c0 t0, stringifyAt d j = c0 :: t0 ∧ isWsChar c0 = false ∧ c0 ≠ ']' := by
  cases j with
  | null => rw [stringifyAt]; exact ⟨'n', _, rfl, by decide, by decide⟩
  | bool b =>
      cases b
      · rw [stringifyAt]; exact ⟨'f', _, rfl, by decide, by decide⟩
      · rw [stringifyAt]; exact ⟨'t', _, rfl, by decide, by decide⟩
  | num n =>
      rw [stringifyAt]
      by_cases hn : n < 0
      · rw [intChars, if_pos hn]; exact ⟨'-', _, rfl, by decide, by decide⟩
      · rw [intChars, if_neg hn]
        cases hc : natChars n.toNat with
        | nil => exact absurd hc (natChars_ne_nil _)
        | cons c0 t0 =>
            have hd : isDigChar c0 = true := natChars_digits _ c0 (by rw [hc]; simp)
            have hb := isDig_bounds hd
            refine ⟨c0, t0, rfl, isDig_not_ws hd, char_ne_of_toNat_ne ?_⟩
            rw [show (']' : Char).toNat = 93 from rfl]
            omega
  | str s => rw [stringifyAt]; exact ⟨'"', _, rfl, by decide, by decide⟩
  | arr xs =>
      cases xs with
      | nil => rw [stringifyAt]; exact ⟨'[', _, rfl, by decide, by decide⟩
      | cons x xs => rw [stringifyAt]; exact ⟨'[', _, rfl, by decide, by decide⟩
  | obj kvs =>
      cases kvs with
      | nil => rw [stringifyAt]; exact ⟨lbrace, _, rfl, by decide, by decide⟩
      | cons kv rest =>
          obtain ⟨k, v⟩ := kv
          rw [stringifyAt]
          exact ⟨lbrace, _, rfl, by decide, by decide⟩

theorem skipWs_cons_ws {c : Char} (hc : isWsChar c = true) (l : List Char) :
    skipWs (c :: l) = skipWs l := by
  rw [skipWs, if_pos hc]

theorem skipWs_stringify_append (d : Nat) (j : Json) (rest : List Char) :
    skipWs (stringifyAt d j ++ rest) = stringifyAt d j ++ rest := by
  obtain ⟨c0, t0, he, hws, _⟩ := stringifyAt_head d j
  rw [he, List.cons_append, skipWs_cons_not_ws _ hws]

theorem skipWs_pre_stringify (pre : List Char) (d : Nat) (j : Json) (rest : List Char)
    (hpre : ∀ ch ∈ pre, isWsChar ch = true) :
    skipWs (pre ++ (stringifyAt d j ++ rest)) = stringifyAt d j ++ rest := by
  rw [skipWs_ws_append _ hpre, skipWs_stringify_append]

/-!  ### The parser inverts the serializer  -/

theorem parse_round_aux : ∀ fuel : Nat,
    (∀ (j : Json) (d : Nat) (pre rest : List Char), Json.weight j ≤ fuel →
      (∀ ch ∈ pre, isWsChar ch = true) → digitStart rest = false →
      parseVal fuel (pre ++ (stringifyAt d j ++ rest)) = some (j, rest)) ∧
    (∀ (x : Json) (xs : List Json) (d : Nat) (pre t rest : List Char),
      1 + Json.weight x + weightItems xs ≤ fuel →
      (∀ ch ∈ pre, isWsChar ch = true) → skipWs t = ']' :: rest →
      parseItems fuel (pre ++ (stringifyAt d x ++ itemsSep d xs t)) = some (x :: xs, rest)) ∧
    (∀ (k : String) (v : Json) (kvs : List (String × Json)) (d : Nat) (pre t rest : List Char),
      1 + Json.weight v + weightFields kvs ≤ fuel →
      (∀ ch ∈ pre, isWsChar ch = true) → skipWs t = rbrace :: rest →
      parseFields fuel (pre ++ ('"' :: (escString k.data ++
        ('"' :: ':' :: ' ' :: (stringifyAt d v ++ fieldsSep d kvs t))))) =
        some ((k, v) :: kvs, rest)) := by
  intro fuel
  induction fuel with
  | zero =>
      refine ⟨fun j _ _ _ hw _ _ => ?_, fun x _ _ _ _ _ hw _ _ => ?_,
              fun _ v _ _ _ _ _ hw _ _ => ?_⟩
      · exact absurd hw (by have := weight_pos j; omega)
      · exact absurd hw (by omega)
      · exact absurd hw (by omega)
  | succ fuel ih =>
      obtain ⟨ihV, ihI, ihF⟩ := ih
      refine ⟨?_, ?_, ?_⟩
      -- parseVal
      · intro j d pre rest hw hpre hr
        rw [parseVal, skipWs_pre_stringify pre d j rest hpre]
        cases j with
        | null =>
            rw [stringifyAt]
            simp only [List.cons_append, List.nil_append]
            try dsimp only
            rw [if_pos (by trivial),
                show ('u' :: 'l' :: 'l' :: rest) = ['u', 'l', 'l'] ++ rest from by simp,
                expectChars_append]
            rfl
        | bool b =>
            cases b
            · rw [stringifyAt]
              simp only [List.cons_append, List.nil_append]
              try dsimp only
              rw [if_neg (by decide), if_neg (by decide), if_pos (by trivial),
                  show ('a' :: 'l' :: 's' :: 'e' :: rest) = ['a', 'l', 's', 'e'] ++ rest from by
                    simp,
                  expectChars_append]
              rfl
            · rw [stringifyAt]
              simp only [List.cons_append, List.nil_append]
              try dsimp only
              rw [if_neg (by decide), if_pos (by trivial),
                  show ('r' :: 'u' :: 'e' :: rest) = ['r', 'u', 'e'] ++ rest from by simp,
                  expectChars_append]
              rfl
        | num n =>
            rw [stringifyAt]
            by_cases hn : n < 0
            · rw [intChars, if_pos hn, List.cons_append]
              try dsimp only
              rw [if_neg (by decide), if_neg (by decide), if_neg (by decide),
                  if_neg (by decide), if_neg (by decide), if_neg (by decide),
                  if_pos (by decide)]
              rw [← List.cons_append,
                  show ('-' :: natChars n.natAbs) = intChars n from by rw [intChars, if_pos hn],
                  parseIntTok_round n rest hr]
              rfl
            · rw [intChars, if_neg hn]
              cases hc : natChars n.toNat with
              | nil => exact absurd hc (natChars_ne_nil _)
              | cons c0 t0 =>
                  have hdig0 : isDigChar c0 = true := natChars_digits _ c0 (by rw [hc]; simp)
                  have hb := isDig_bounds hdig0
                  rw [List.cons_append]
                  try dsimp only
                  rw [if_neg (char_ne_of_toNat_ne (by rw [show ('n' : Char).toNat = 110 from rfl]; omega)),
                      if_neg (char_ne_of_toNat_ne (by rw [show ('t' : Char).toNat = 116 from rfl]; omega)),
                      if_neg (char_ne_of_toNat_ne (by rw [show ('f' : Char).toNat = 102 from rfl]; omega)),
                      if_neg (char_ne_of_toNat_ne (by rw [show ('"' : Char).toNat = 34 from rfl]; omega)),
                      if_neg (char_ne_of_toNat_ne (by rw [show ('[' : Char).toNat = 91 from rfl]; omega)),
                      if_neg (char_ne_of_toNat_ne (by rw [show (lbrace : Char).toNat = 123 from rfl]; omega)),
                      if_pos (by rw [hdig0]; simp)]
                  rw [← List.cons_append, ← hc,
                      show natChars n.toNat = intChars n from by rw [intChars, if_neg hn],
                      parseIntTok_round n rest hr]
                  rfl
        | str s =>
            rw [stringifyAt, List.cons_append, List.append_assoc, List.singleton_append]
            try dsimp only
            rw [if_neg (by decide), if_neg (by decide), if_neg (by decide), if_pos (by trivial),
                parseStrBody_esc s.data rest]
            simp only [Option.map_some']
            try rw [string_mk_data]
        | arr xs =>
            cases xs with
            | nil =>
                rw [stringifyAt, List.cons_append, List.singleton_append]
                try dsimp only
                rw [if_neg (by decide), if_neg (by decide), if_neg (by decide),
                    if_neg (by decide), if_pos (by trivial),
                    skipWs_cons_not_ws _ (by decide)]
                try dsimp only
                rw [if_pos (by trivial)]
            | cons x xs =>
                rw [stringifyAt]
                simp only [List.cons_append, List.append_assoc, List.singleton_append,
                  List.nil_append]
                try dsimp only
                rw [if_neg (by decide), if_neg (by decide), if_neg (by decide),
                    if_neg (by decide), if_pos (by trivial)]
                rw [stringifyItems_decomp]
                rw [skipWs_cons_ws (by decide), skipWs_ws_append _ (indentChars_ws (d + 1)),
                    skipWs_stringify_append]
                obtain ⟨c0, t0, he, hws, hne⟩ := stringifyAt_head (d + 1) x
                rw [he, List.cons_append]
                try dsimp only
                rw [if_neg hne, ← List.cons_append, ← he]
                rw [Json.weight, weightItems] at hw
                have happ := ihI x xs (d + 1) [] ('\n' :: (indentChars d ++ (']' :: rest))) rest
                      (by omega) (by simp)
                      (by rw [skipWs_cons_ws (by decide), skipWs_ws_append _ (indentChars_ws d),
                              skipWs_cons_not_ws _ (by decide)])
                rw [List.nil_append] at happ
                rw [happ]
                rfl
        | obj kvs =>
            cases kvs with
            | nil =>
                rw [stringifyAt, List.cons_append, List.singleton_append]
                try dsimp only
                rw [if_neg (by decide), if_neg (by decide), if_neg (by decide),
                    if_neg (by decide), if_neg (by decide), if_pos (by trivial),
                    skipWs_cons_not_ws _ (by decide)]
                try dsimp only
                rw [if_pos (by trivial)]
            | cons kv kvs =>
                obtain ⟨k, v⟩ := kv
                rw [stringifyAt]
                simp only [List.cons_append, List.append_assoc, List.singleton_append,
                  List.nil_append]
                try dsimp only
                rw [if_neg (by decide), if_neg (by decide), if_neg (by decide),
                    if_neg (by decide), if_neg (by decide), if_pos (by trivial)]
                rw [stringifyFields_decomp]
                rw [skipWs_cons_ws (by decide), skipWs_ws_append _ (indentChars_ws (d + 1)),
                    skipWs_cons_not_ws _ (by decide)]
                try dsimp only
                rw [if_neg (by decide)]
                rw [Json.weight, weightFields] at hw
                have happ := ihF k v kvs (d + 1) []
                      ('\n' :: (indentChars d ++ (rbrace :: rest))) rest
                      (by omega) (by simp)
                      (by rw [skipWs_cons_ws (by decide), skipWs_ws_append _ (indentChars_ws d),
                              skipWs_cons_not_ws _ (by decide)])
                rw [List.nil_append] at happ
                rw [happ]
                rfl
      -- parseItems
      · intro x xs d pre t rest hw hpre ht
        have hds : digitStart (itemsSep d xs t) = false := by
          cases xs with
          | nil => rw [itemsSep]; exact digitStart_of_skipWs ht (by decide)
          | cons y ys => rw [itemsSep, digitStart]; decide
        rw [parseItems,
            ihV x d pre (itemsSep d xs t) (by have := weight_pos x; omega) hpre hds]
        try dsimp only
        cases xs with
        | nil =>
            rw [itemsSep, ht]
            try dsimp only
            rw [if_neg (by decide), if_pos (by trivial)]
        | cons y ys =>
            rw [itemsSep, skipWs_cons_not_ws _ (by decide)]
            try dsimp only
            rw [if_pos (by trivial)]
            rw [stringifyItems_decomp]
            rw [weightItems] at hw
            have happ := ihI y ys d ('\n' :: indentChars d) t rest
                  (by have := weight_pos x; omega)
                  (by
                    intro ch hch
                    rcases List.mem_cons.1 hch with h | h
                    · rw [h]; decide
                    · exact indentChars_ws d ch h)
                  ht
            rw [List.cons_append] at happ
            rw [happ]
            rfl
      -- parseFields
      · intro k v kvs d pre t rest hw hpre ht
        have hds : digitStart (fieldsSep d kvs t) = false := by
          cases kvs with
          | nil => rw [fieldsSep]; exact digitStart_of_skipWs ht (by decide)
          | cons kv2 kvs2 =>
              obtain ⟨k2, v2⟩ := kv2
              rw [fieldsSep, digitStart]
              decide
        rw [parseFields, skipWs_ws_append _ hpre, skipWs_cons_not_ws _ (by decide)]
        try dsimp only
        rw [if_pos (by trivial), parseStrBody_esc k.data]
        try dsimp only
        rw [skipWs_cons_not_ws _ (by decide)]
        try dsimp only
        rw [if_pos (by trivial)]
        have happV := ihV v d [' '] (fieldsSep d kvs t) (by have := weight_pos v; omega)
              (by intro ch hch; simp at hch; rw [hch]; decide) hds
        rw [List.singleton_append] at happV
        rw [happV]
        try dsimp only
        cases kvs with
        | nil =>
            rw [fieldsSep, ht]
            try dsimp only
            rw [if_neg (by decide), if_pos (by trivial), string_mk_data]
        | cons kv2 kvs2 =>
            obtain ⟨k2, v2⟩ := kv2
            rw [fieldsSep, skipWs_cons_not_ws _ (by decide)]
            try dsimp only
            rw [if_pos (by trivial)]
            rw [stringifyFields_decomp]
            rw [weightFields] at hw
            have happ := ihF k2 v2 kvs2 d ('\n' :: indentChars d) t rest
                  (by have := weight_pos v; omega)
                  (by
                    intro ch hch
                    rcases List.mem_cons.1 hch with h | h
                    · rw [h]; decide
                    · exact indentChars_ws d ch h)
                  ht
            rw [List.cons_append] at happ
            rw [happ]
            rfl

theorem parseJson_stringifyTop (j : Json) : parseJson (stringifyTop j) = some j := by
  rw [parseJson, stringifyTop,
      show (String.mk (stringifyAt 0 j)).data = stringifyAt 0 j from rfl]
  have h := (parse_round_aux ((stringifyAt 0 j).length + 1)).1 j 0 [] []
    (by have := weight_le_length j 0; omega) (by simp) rfl
  rw [List.nil_append, List.append_nil] at h
  rw [h]
  try dsimp only
  rw [if_pos (show skipWs [] = ([] : List Char) from rfl)]

/-- C8: the content uploaded for `plugins/<id>/config.json`, base64-decoded
and JSON-parsed, equals the derived config document, which carries the
defaults `version = "1.0.0"`, `category = "工具"`,
`changelog = "v1.0.0 - 初始版本"` and `featured = false`. -/
theorem c8_config_upload_roundtrip (data : Body) :
    decodeUpload (configUpload data) = some (configJson data) ∧
    (data.version.truthy = false →
      (configJson data).getField? "version" = some (.str "1.0.0")) ∧
    (data.category.truthy = false →
      (configJson data).getField? "category" = some (.str "工具")) ∧
    (data.changelog.truthy = false →
      (configJson data).getField? "changelog" = some (.str "v1.0.0 - 初始版本")) ∧
    (configJson data).getField? "featured" = some (.bool false) := by
  refine ⟨?_, ?_, ?_, ?_, rfl⟩
  · rw [decodeUpload, configUpload, fromBase64_toBase64]
    simp only [Option.some_bind]
    exact parseJson_stringifyTop (configJson data)
  · intro h
    simp [configJson, Json.getField?, lookupField, jsOr, h, JSVal.toJson]
  · intro h
    simp [configJson, Json.getField?, lookupField, jsOr, h, JSVal.toJson]
  · intro h
    simp [configJson, Json.getField?, lookupField, jsOr, h, JSVal.toJson]

/-- C8 (witness): the round-trip and the defaults on the empty body. -/
theorem c8_witness :
    decodeUpload (configUpload bodyEmpty) = some (configJson bodyEmpty) ∧
    (configJson bodyEmpty).getField? "version" = some (.str "1.0.0") ∧
    (configJson bodyEmpty).getField? "category" = some (.str "工具") ∧
    (configJson bodyEmpty).getField? "changelog" = some (.str "v1.0.0 - 初始版本") := by
  have h := c8_config_upload_roundtrip bodyEmpty
  exact ⟨h.1, h.2.1 rfl, h.2.2.1 rfl, h.2.2.2.1 rfl⟩

end Submit
